import Mathlib

/-!
Shallow embedding of the FloraGenius plant-care application core
(src/App.tsx, src/types.ts): the Journal Store (capacity-bounded list of
identification records persisted in browser storage), the Reminder
Scheduler (create / complete / delete over PlantReminder records, the
due-status display bucket, and the polling due-check), and the auth
surrogate (authService.login).

Modelling conventions:
* Timestamps (JavaScript Date values and their ISO-8601 serializations,
  which round-trip losslessly) are integers counting milliseconds;
  `Date.setDate(getDate() + n)` is adding `n * dayMs` milliseconds.
* A single handler invocation reads one wall-clock instant `now`
  (the source calls `new Date()` more than once inside a handler, but the
  calls are sub-millisecond apart in a single synchronous handler).
* `localStorage` values are `Option String`; JavaScript `s || '[]'`
  treats both `null` and the empty string as falsy.
* `JSON.parse` is modelled, at the granularity of journal-entry identity,
  by a partial parser that succeeds exactly on the bracketed
  comma-separated encodings and fails (as `JSON.parse` throws on
  malformed input) on every other string.
* The file App.tsx packs two revisions of the application; where they
  differ the later revision (the one with notification settings) is
  embedded, since it is the one the specification describes.
-/

namespace FloraGenius

/-- Milliseconds per day, the constant `1000 * 60 * 60 * 24` used by
`getDayStatus` in src/App.tsx. -/
def dayMs : Int := 86400000

/-- Milliseconds per minute, used for the one-minute-overdue scenario. -/
def minuteMs : Int := 60000

/-- JavaScript `Math.ceil(a / b)` for integer `a` and positive integer `b`:
the negation of the floor division of `-a` by `b`. -/
def ceilDiv (a b : Int) : Int := -((-a) / b)

/-- CareGuide record (src/types.ts). -/
structure CareGuide where
  watering : String
  sunlight : String
  soil : String
  temperature : String
  homeRemedies : List String
deriving Repr, DecidableEq

/-- PlantIdentification record (src/types.ts). -/
structure PlantIdentification where
  name : String
  scientificName : String
  family : String
  description : String
  facts : List String
  careGuide : CareGuide
  isToxic : Bool
  toxicityDetails : Option String
  isWeed : Bool
deriving Repr, DecidableEq

/-- JournalEntry record (src/types.ts); `timestamp` is kept as the ISO
string the source stores, `imageUrl` is nullable. -/
structure JournalEntry where
  id : String
  timestamp : String
  plant : PlantIdentification
  imageUrl : Option String
deriving Repr, DecidableEq

/-- PlantReminder record (fields as constructed by `handleAddReminder` in
src/App.tsx); the two timestamps are modelled as millisecond instants. -/
structure PlantReminder where
  id : String
  plantId : String
  plantName : String
  task : String
  frequencyDays : Int
  lastCompleted : Int
  nextDue : Int
deriving Repr, DecidableEq

/-- NotificationSettings record: one enabled-flag per task category
(keys of DEFAULT_SETTINGS in src/App.tsx). -/
structure NotificationSettings where
  watering : Bool
  pruning : Bool
  rotating : Bool
  fertilizing : Bool
  mistClean : Bool
  repotting : Bool
  other : Bool
deriving Repr, DecidableEq

/-- DEFAULT_SETTINGS from src/App.tsx: every category enabled. -/
def DEFAULT_SETTINGS : NotificationSettings :=
  { watering := true, pruning := true, rotating := true,
    fertilizing := true, mistClean := true, repotting := true,
    other := true }

/-- TASK_ICONS from src/App.tsx: the fixed task labels and their icons;
`Object.keys(TASK_ICONS)` is the first projection of this list. -/
def TASK_ICONS : List (String × String) :=
  [("Watering", "fa-droplet"), ("Pruning", "fa-scissors"),
   ("Rotating", "fa-arrows-rotate"), ("Fertilizing", "fa-flask"),
   ("Mist/Clean", "fa-sparkles"), ("Repotting", "fa-vial-circle-check"),
   ("Other", "fa-bell")]

/-- Indexing `settings[label]` for a label drawn from the keys of
TASK_ICONS; the wildcard arm is never reached by `checkSchedule`, which
falls back to "Other" first. -/
def settingsLookup (s : NotificationSettings) : String → Bool
  | "Watering" => s.watering
  | "Pruning" => s.pruning
  | "Rotating" => s.rotating
  | "Fertilizing" => s.fertilizing
  | "Mist/Clean" => s.mistClean
  | "Repotting" => s.repotting
  | _ => s.other

/-- Date arithmetic `d.setDate(d.getDate() + n)` on the millisecond
timeline. -/
def addDays (t : Int) (n : Int) : Int := t + n * dayMs

/-! Journal Store (IdentifyScreen.handleIdentify persistence step and
JournalScreen load in src/App.tsx). -/

/-- The in-memory append of `handleIdentify`:
`[newEntry, ...journal].slice(0, 20)`. -/
def appendJournal (newEntry : JournalEntry) (journal : List JournalEntry) :
    List JournalEntry :=
  (newEntry :: journal).take 20

/-- A whole user flow of identifications: each appends one entry, starting
from the given stored journal. -/
def appendAll (entries : List JournalEntry) (journal : List JournalEntry) :
    List JournalEntry :=
  entries.foldl (fun acc e => appendJournal e acc) journal

/-- The persist step of `handleIdentify` with its quota fallback:
`try setItem(updated) catch { setItem(updated.slice(0, 10)) }`.
`accepts` models which collections the storage layer admits (a quota);
the second `setItem` is not guarded, so its failure escapes as an
exception, modelled by the `error` arm. -/
def persistJournalWithRetry (accepts : List JournalEntry → Bool)
    (updated : List JournalEntry) : Except Unit (List JournalEntry) :=
  if accepts updated then Except.ok updated
  else if accepts (updated.take 10) then Except.ok (updated.take 10)
  else Except.error ()

/-- Splitting a character list at commas, the behaviour of
`String.split(',')` on the list encoding. -/
def splitCommas : List Char → List (List Char)
  | [] => [[]]
  | c :: rest =>
    if c = ',' then [] :: splitCommas rest
    else
      match splitCommas rest with
      | [] => [[c]]
      | g :: gs => (c :: g) :: gs

/-- Model of `JSON.parse` applied to a stored journal string, at the
granularity of entry identity: a string parses exactly when it is
`"[]"` or a bracketed comma-separated list of entry ids; any other
string makes `JSON.parse` throw, modelled by the `error` arm. -/
def parseJournal (s : String) : Except String (List String) :=
  let cs := s.toList
  if cs.head? = some '[' ∧ cs.getLast? = some ']' ∧ 2 ≤ cs.length then
    let inner := (cs.drop 1).dropLast
    if inner = [] then Except.ok []
    else Except.ok ((splitCommas inner).map (fun g => String.mk g))
  else Except.error "Unexpected token in JSON"

/-- The journal load of `JournalScreen` (and the identical one in
`RemindersScreen`): `JSON.parse(localStorage.getItem(key) || '[]')`.
JavaScript `||` replaces both `null` and the empty string by `'[]'`. -/
def loadJournal (stored : Option String) : Except String (List String) :=
  parseJournal
    (match stored with
     | none => "[]"
     | some s => if s = "" then "[]" else s)

/-! Reminder Scheduler (RemindersScreen and the due-check effect in
src/App.tsx). -/

/-- The reminder built and prepended by `handleAddReminder` once the
guard has passed. -/
def mkNewReminder (plants : List JournalEntry)
    (selectedPlantId task customTask : String) (frequency : Int)
    (now : Int) (newId : String) : PlantReminder :=
  let plant := plants.find? (fun p => p.id == selectedPlantId)
  { id := newId,
    plantId := if selectedPlantId == "" then "custom" else selectedPlantId,
    plantName := match plant with
                 | some p => p.plant.name
                 | none => "Unknown Plant",
    task := if task == "Other" then customTask else task,
    frequencyDays := frequency,
    lastCompleted := now,
    nextDue := addDays now frequency }

/-- `handleAddReminder` of RemindersScreen: a silent no-op when no plant
resolves and the custom-task field is empty (JavaScript
`if (!plant && !customTask) return`), otherwise prepend the new reminder
to the stored collection. -/
def handleAddReminder (plants : List JournalEntry)
    (selectedPlantId task customTask : String) (frequency : Int)
    (now : Int) (newId : String) (reminders : List PlantReminder) :
    List PlantReminder :=
  let plant := plants.find? (fun p => p.id == selectedPlantId)
  if plant.isNone ∧ customTask == "" then reminders
  else
    mkNewReminder plants selectedPlantId task customTask frequency now newId
      :: reminders

/-- `handleComplete` of RemindersScreen: map over the stored reminders,
replacing the matching one's `lastCompleted` by now and `nextDue` by
now plus its own `frequencyDays` days. -/
def handleComplete (id : String) (now : Int)
    (reminders : List PlantReminder) : List PlantReminder :=
  reminders.map fun r =>
    if r.id == id then
      { r with lastCompleted := now, nextDue := addDays now r.frequencyDays }
    else r

/-- `handleDelete` of RemindersScreen. -/
def handleDelete (id : String) (reminders : List PlantReminder) :
    List PlantReminder :=
  reminders.filter fun r => ¬(r.id == id)

/-- The result record of `getDayStatus`. -/
structure DayStatus where
  label : String
  color : String
deriving Repr, DecidableEq

/-- `getDayStatus` of RemindersScreen: bucket the signed distance to the
due date by `Math.ceil(diff / (1000*60*60*24))`. -/
def getDayStatus (dateStr : Int) (now : Int) : DayStatus :=
  let diff := dateStr - now
  let days := ceilDiv diff dayMs
  if days < 0 then { label := "Overdue", color := "text-red-500" }
  else if days = 0 then { label := "Due Today", color := "text-amber-500" }
  else { label := "In " ++ toString days ++ " day"
                  ++ (if 1 < days then "s" else ""),
         color := "text-plantin-leaf" }

/-- The category a task label is billed under by `checkSchedule`: itself
when it is one of `Object.keys(TASK_ICONS)`, the fallback "Other"
otherwise. -/
def taskCategory (task : String) : String :=
  if (TASK_ICONS.map Prod.fst).contains task then task else "Other"

/-- The eligibility predicate of the due-check effect `checkSchedule`:
due (`new Date(r.nextDue) <= now`) and the notification setting of the
task's category enabled. -/
def isEligible (settings : NotificationSettings) (now : Int)
    (r : PlantReminder) : Bool :=
  decide (r.nextDue ≤ now) && settingsLookup settings (taskCategory r.task)

/-- `checkSchedule`: `reminders.find(...)`, the reminder (if any) whose
popup is raised. -/
def checkSchedule (reminders : List PlantReminder)
    (settings : NotificationSettings) (now : Int) : Option PlantReminder :=
  reminders.find? (isEligible settings now)

/-- The popup messages raised by one invocation of `checkSchedule`:
one `setActivePopup` call when a reminder is found, none otherwise. -/
def checkScheduleMessages (reminders : List PlantReminder)
    (settings : NotificationSettings) (now : Int) : List String :=
  match checkSchedule reminders settings now with
  | some due => [due.plantName ++ " needs " ++ due.task.toLower ++ "!"]
  | none => []

/-! Auth surrogate (authService in src/types.ts pack). -/

/-- User record (src/types.ts). -/
structure User where
  id : String
  email : String
  name : String
  isPro : Bool
  joinedDate : String
deriving Repr, DecidableEq

/-- The authService state: the stored user list (DB_KEY) and the active
session (SESSION_KEY). -/
structure AuthState where
  users : List User
  session : Option User
deriving Repr, DecidableEq

/-- `authService.login(email, password)`: find the user by email alone;
throw "User not found" when absent, otherwise save the session and
return the user. The password parameter is accepted and never read. -/
def login (st : AuthState) (email : String) (password : String) :
    Except String (User × AuthState) :=
  match st.users.find? (fun u => u.email == email) with
  | none => Except.error "User not found"
  | some u => Except.ok (u, { st with session := some u })

/-! Concrete fixtures used by witnesses and counterexamples. -/

/-- A fixed identification record for test entries. -/
def testPlant : PlantIdentification :=
  { name := "Monstera", scientificName := "Monstera deliciosa",
    family := "Araceae", description := "a plant", facts := [],
    careGuide := { watering := "weekly", sunlight := "indirect",
                   soil := "well-draining", temperature := "18-27C",
                   homeRemedies := [] },
    isToxic := false, toxicityDetails := none, isWeed := false }

/-- The n-th distinct journal entry of a test sequence. -/
def mkEntry (n : Nat) : JournalEntry :=
  { id := toString n, timestamp := toString n, plant := testPlant,
    imageUrl := none }

/-- Entries 1 through n, in the order they are appended. -/
def entrySeq (n : Nat) : List JournalEntry :=
  (List.range n).map (fun i => mkEntry (i + 1))

/-- A concrete watering reminder due at instant 0. -/
def rem1 : PlantReminder :=
  { id := "a", plantId := "custom", plantName := "Monstera",
    task := "Watering", frequencyDays := 7, lastCompleted := -7 * dayMs,
    nextDue := 0 }

/-- A second concrete reminder, also due at instant 0. -/
def rem2 : PlantReminder :=
  { id := "b", plantId := "custom", plantName := "Fern",
    task := "Pruning", frequencyDays := 3, lastCompleted := -3 * dayMs,
    nextDue := 0 }

/-- A concrete stored user for the auth fixtures. -/
def user1 : User :=
  { id := "u1", email := "amy@example.com", name := "Amy", isPro := true,
    joinedDate := "2025-01-01" }

/-- The arithmetic invariant of Claim C2 on a single reminder, with
frequencyDays read as that many 24-hour days of milliseconds. -/
def reminderInvariant (r : PlantReminder) : Prop :=
  r.nextDue = r.lastCompleted + r.frequencyDays * dayMs

instance (r : PlantReminder) : Decidable (reminderInvariant r) := by
  unfold reminderInvariant; infer_instance

/-- Joining id groups with commas: the body of the JSON-array encoding
of a stored journal. -/
def joinCommas : List (List Char) → List Char
  | [] => []
  | [g] => g
  | g :: gs => g ++ ',' :: joinCommas gs

/-- Model of `JSON.stringify` on a journal at the granularity of entry
identity: the bracketed comma-separated id list. -/
def stringifyJournal (ids : List String) : String :=
  String.mk ('[' :: (joinCommas (ids.map String.data) ++ [']']))

/-- A concrete quota admitting at most ten entries. -/
def quota10 : List JournalEntry → Bool := fun l => decide (l.length ≤ 10)

/-! Helper lemmas shared between claims. -/

/-- Truncating the second summand to n before an append changes nothing
once the whole append is truncated to n. -/
lemma take_append_take {α : Type} (l m : List α) (n : Nat) :
    (l ++ m.take n).take n = (l ++ m).take n := by
  rw [List.take_append_eq_append_take, List.take_append_eq_append_take,
    List.take_take, Nat.min_eq_left (Nat.sub_le n l.length)]

/-- Folding appends over a bounded journal is truncation of the reversed
append sequence in front of it. -/
lemma appendAll_eq_take (es : List JournalEntry) :
    ∀ j : List JournalEntry, j.length ≤ 20 →
      appendAll es j = (es.reverse ++ j).take 20 := by
  induction es with
  | nil =>
      intro j hj
      simp [appendAll, List.take_of_length_le hj]
  | cons e es ih =>
      intro j hj
      have h1 : appendAll (e :: es) j = appendAll es ((e :: j).take 20) :=
        rfl
      rw [h1, ih ((e :: j).take 20) (by simp), take_append_take]
      simp [List.append_assoc]

/-- JavaScript Math.ceil(a / 86400000) is negative exactly for a at least
one full day below zero. -/
lemma ceilDiv_dayMs_neg_iff (a : Int) : ceilDiv a dayMs < 0 ↔ a ≤ -dayMs := by
  unfold ceilDiv dayMs; omega

/-- JavaScript Math.ceil(a / 86400000) is zero exactly on the half-open
day-window ending at zero. -/
lemma ceilDiv_dayMs_zero_iff (a : Int) :
    ceilDiv a dayMs = 0 ↔ (-dayMs < a ∧ a ≤ 0) := by
  unfold ceilDiv dayMs; omega

/-- A label of the form "In ..." starts with the character I. -/
lemma in_label_head (s t u : String) :
    ("In " ++ s ++ t ++ u).data.head? = some 'I' := by
  simp [String.data_append]

/-- find? returns the first element satisfying the predicate: the list
splits at the hit and everything before it fails the predicate. -/
lemma find?_first_split {α : Type} (p : α → Bool) (l : List α) (a : α)
    (h : l.find? p = some a) :
    ∃ l1 l2, l = l1 ++ a :: l2 ∧ (∀ x ∈ l1, p x = false) ∧ p a = true := by
  induction l with
  | nil => simp [List.find?] at h
  | cons x xs ih =>
      by_cases hx : p x = true
      · rw [List.find?_cons_of_pos xs hx] at h
        obtain rfl : x = a := Option.some.inj h
        exact ⟨[], xs, rfl, by simp, hx⟩
      · rw [List.find?_cons_of_neg xs hx] at h
        obtain ⟨l1, l2, hsplit, hfail, hhit⟩ := ih h
        refine ⟨x :: l1, l2, by rw [hsplit, List.cons_append], ?_, hhit⟩
        intro y hy
        rcases List.mem_cons.mp hy with rfl | hy
        · exact Bool.not_eq_true _ ▸ Bool.of_not_eq_true hx
        · exact hfail y hy

/-! Claims. -/

/-- Claim C1, counterexample: the journal capacity bound in
`handleIdentify` is `slice(0, 20)`, not 15; after appending 20 distinct
entries the stored journal has length 20, not 15, and entry 1 is still
present (the claim asserts entries 1 through 5 are evicted). -/
theorem C1_counterexample :
    ¬ ((appendAll (entrySeq 20) []).length = 15) ∧
      (appendAll (entrySeq 20) []).length = 20 ∧
      mkEntry 1 ∈ appendAll (entrySeq 20) [] := by
  refine ⟨by decide, by decide, by decide⟩

/-- Claim C1, amended: the journal capacity bound is 20. For every
sequence of appends starting from the empty store, `list()` is exactly
the 20 most-recently appended entries in most-recent-first order, oldest
evicted first; appending 20 distinct entries keeps all 20, and only
after appending 25 distinct entries are entries 1 through 5 evicted,
leaving entries 6 through 25. -/
theorem C1_journal_capacity_bound :
    (∀ entries : List JournalEntry,
      appendAll entries [] = entries.reverse.take 20) ∧
    appendAll (entrySeq 20) [] = (entrySeq 20).reverse ∧
    appendAll (entrySeq 25) [] = ((entrySeq 25).drop 5).reverse ∧
    ¬ (mkEntry 1 ∈ appendAll (entrySeq 25) []) := by
  refine ⟨?_, by decide, by decide, by decide⟩
  intro entries
  simpa using appendAll_eq_take entries [] (by simp)

/-- Claim C2: every reminder in the stored collection satisfies
nextDue = lastCompleted + frequencyDays after every create
(`handleAddReminder`) and every complete (`handleComplete`) operation,
provided the collection satisfied it before. -/
theorem C2_reminder_arith_invariant (plants : List JournalEntry)
    (sid task ctask : String) (freq now : Int) (newId id : String)
    (rs : List PlantReminder) (h : ∀ r ∈ rs, reminderInvariant r) :
    (∀ r ∈ handleAddReminder plants sid task ctask freq now newId rs,
      reminderInvariant r) ∧
    (∀ r ∈ handleComplete id now rs, reminderInvariant r) := by
  constructor
  · intro r hr
    simp only [handleAddReminder] at hr
    split at hr
    · exact h r hr
    · rcases List.mem_cons.mp hr with h1 | h1
      · subst h1
        simp [mkNewReminder, reminderInvariant, addDays]
      · exact h r h1
  · intro r hr
    unfold handleComplete at hr
    rcases List.mem_map.mp hr with ⟨r0, hr0, hmap⟩
    subst hmap
    split
    · simp [reminderInvariant, addDays]
    · exact h r0 hr0

/-- Claim C2, witness: the invariant propagates through a concrete
create over an empty store and a concrete complete of rem1. -/
theorem C2_witness :
    (∀ r ∈ handleAddReminder [] "" "Other" "Mist leaves" 7 1000 "n" [],
      reminderInvariant r) ∧
    (∀ r ∈ handleComplete "a" (2 * dayMs) [rem1], reminderInvariant r) :=
  ⟨(C2_reminder_arith_invariant [] "" "Other" "Mist leaves" 7 1000 "n" ""
      [] (by decide)).1,
   (C2_reminder_arith_invariant [] "" "" "" 0 (2 * dayMs) "" "a"
      [rem1] (by decide)).2⟩

/-- Claim C3: `handleComplete` is a no-op when the id is absent; when a
stored reminder carries the id, the output contains that reminder with
lastCompleted set to the call's now, nextDue recomputed as now plus its
unchanged frequencyDays (never derived from the stale nextDue); and
after two immediate completes every matching reminder's fields come from
the second call's own now. -/
theorem C3_complete_postcondition (rs : List PlantReminder) (id : String)
    (t1 t2 : Int) :
    ((∀ r ∈ rs, r.id ≠ id) → handleComplete id t1 rs = rs) ∧
    (∀ r ∈ rs, r.id = id →
      { r with lastCompleted := t1,
               nextDue := t1 + r.frequencyDays * dayMs } ∈
        handleComplete id t1 rs) ∧
    (∀ r ∈ handleComplete id t2 (handleComplete id t1 rs), r.id = id →
      r.lastCompleted = t2 ∧ r.nextDue = t2 + r.frequencyDays * dayMs) := by
  refine ⟨?_, ?_, ?_⟩
  · intro hall
    unfold handleComplete
    conv_rhs => rw [← List.map_id rs]
    apply List.map_congr_left
    intro r hr
    have hid : (r.id == id) = false := beq_eq_false_iff_ne.mpr (hall r hr)
    simp [hid]
  · intro r hr hid
    have h1 : (r.id == id) = true := beq_iff_eq.mpr hid
    unfold handleComplete
    refine List.mem_map.mpr ⟨r, hr, ?_⟩
    simp [h1, addDays]
  · intro r hr hid
    unfold handleComplete at hr
    rcases List.mem_map.mp hr with ⟨r1, hr1, hmap⟩
    by_cases h1 : (r1.id == id) = true
    · rw [if_pos h1] at hmap
      subst hmap
      simp [addDays]
    · rw [if_neg h1] at hmap
      subst hmap
      exact absurd (beq_iff_eq.mpr hid) h1

/-- Claim C3, witness: completing rem1 (id "a") at instant 5 under the
foreign id "b" changes nothing; under its own id it rewrites both
timestamps from 5; a second complete at 9 rewrites them from 9. -/
theorem C3_witness :
    handleComplete "b" 5 [rem1] = [rem1] ∧
    ({ rem1 with lastCompleted := 5,
                 nextDue := 5 + rem1.frequencyDays * dayMs } ∈
      handleComplete "a" 5 [rem1]) ∧
    (({ rem1 with lastCompleted := 9,
                  nextDue := 9 + rem1.frequencyDays * dayMs
                  } : PlantReminder).lastCompleted = 9 ∧
      ({ rem1 with lastCompleted := 9,
                   nextDue := 9 + rem1.frequencyDays * dayMs
                   } : PlantReminder).nextDue =
        9 + ({ rem1 with lastCompleted := 9,
                         nextDue := 9 + rem1.frequencyDays * dayMs
                         } : PlantReminder).frequencyDays * dayMs) :=
  ⟨(C3_complete_postcondition [rem1] "b" 5 9).1 (by decide),
   (C3_complete_postcondition [rem1] "a" 5 9).2.1 rem1 (by decide) rfl,
   (C3_complete_postcondition [rem1] "a" 5 9).2.2
     { rem1 with lastCompleted := 9,
                 nextDue := 9 + rem1.frequencyDays * dayMs }
     (by decide) rfl⟩

/-- Claim C4, counterexample: with nextDue = T0 + 7 days and
now = T0 + 7 days + 1 minute (T0 = 0), `getDayStatus` reports
"Due Today", not "Overdue": Math.ceil(-1 minute / 1 day) is 0 in
JavaScript, so the strictly-past-due reminder lands in the zero
bucket. -/
theorem C4_counterexample :
    (getDayStatus (7 * dayMs) (7 * dayMs + minuteMs)).label = "Due Today" ∧
    ¬ ((getDayStatus (7 * dayMs) (7 * dayMs + minuteMs)).label = "Overdue") :=
  ⟨by decide, by decide⟩

/-- Claim C4, amended: `getDayStatus` reports "Overdue" exactly when now
is at least one full day past nextDue; for every now in the day that
follows nextDue (in particular one minute past it) it reports
"Due Today". This matches the spec's own ceil formula and corrects the
spec's scenario sentence. -/
theorem C4_overdue_threshold (nextDue now : Int) :
    ((getDayStatus nextDue now).label = "Overdue" ↔ nextDue + dayMs ≤ now) ∧
    ((getDayStatus nextDue now).label = "Due Today" ↔
      nextDue ≤ now ∧ now < nextDue + dayMs) := by
  have hneg := ceilDiv_dayMs_neg_iff (nextDue - now)
  have hzero := ceilDiv_dayMs_zero_iff (nextDue - now)
  simp only [getDayStatus]
  rcases lt_trichotomy (ceilDiv (nextDue - now) dayMs) 0 with h | h | h
  · rw [if_pos h]
    dsimp only
    constructor
    · constructor
      · intro _
        have := hneg.mp h
        omega
      · intro _
        rfl
    · constructor
      · intro hbad
        exact absurd hbad (by decide)
      · rintro ⟨h1, h2⟩
        have := hzero.mpr ⟨by omega, by omega⟩
        omega
  · rw [if_neg (by omega), if_pos h]
    dsimp only
    constructor
    · constructor
      · intro hbad
        exact absurd hbad (by decide)
      · intro hcond
        have := hneg.mpr (by omega)
        omega
    · constructor
      · intro _
        have := hzero.mp h
        constructor <;> omega
      · intro _
        rfl
  · rw [if_neg (by omega), if_neg (by omega)]
    dsimp only
    constructor
    · constructor
      · intro hbad
        have hh := in_label_head (toString (ceilDiv (nextDue - now) dayMs))
          " day" (if 1 < ceilDiv (nextDue - now) dayMs then "s" else "")
        rw [hbad] at hh
        exact absurd hh (by decide)
      · intro hcond
        have := hneg.mpr (by omega)
        omega
    · constructor
      · intro hbad
        have hh := in_label_head (toString (ceilDiv (nextDue - now) dayMs))
          " day" (if 1 < ceilDiv (nextDue - now) dayMs then "s" else "")
        rw [hbad] at hh
        exact absurd hh (by decide)
      · rintro ⟨h1, h2⟩
        have := hzero.mpr ⟨by omega, by omega⟩
        omega

/-- Claim C5: whatever reminder `checkSchedule` surfaces is due
(nextDue <= now) and has its task category's notification setting
enabled, the category falling back to "Other" when the task label is
not one of the fixed enumerated ones; hence a reminder of a disabled
category is never surfaced, even when overdue. -/
theorem C5_disabled_never_surfaced (rs : List PlantReminder)
    (s : NotificationSettings) (now : Int) (r : PlantReminder)
    (h : checkSchedule rs s now = some r) :
    r.nextDue ≤ now ∧ settingsLookup s (taskCategory r.task) = true := by
  have h2 := List.find?_some h
  unfold isEligible at h2
  rw [Bool.and_eq_true] at h2
  exact ⟨of_decide_eq_true h2.1, h2.2⟩

/-- Claim C5, witness: rem1 is surfaced at instant 5 under the all-true
default settings, so the theorem's hypothesis is satisfiable. -/
theorem C5_witness :
    rem1.nextDue ≤ 5 ∧
    settingsLookup DEFAULT_SETTINGS (taskCategory rem1.task) = true :=
  C5_disabled_never_surfaced [rem1] DEFAULT_SETTINGS 5 rem1 (by rfl)

/-- Claim C6: one invocation of `checkSchedule` raises at most one popup
message, and the reminder it surfaces is the first eligible one in
stored (most-recent-first) order: the collection splits at the surfaced
reminder with every earlier reminder ineligible. -/
theorem C6_single_first_match (rs : List PlantReminder)
    (s : NotificationSettings) (now : Int) :
    (checkScheduleMessages rs s now).length ≤ 1 ∧
    (∀ r, checkSchedule rs s now = some r →
      ∃ l1 l2, rs = l1 ++ r :: l2 ∧
        (∀ x ∈ l1, isEligible s now x = false) ∧
        isEligible s now r = true) := by
  constructor
  · unfold checkScheduleMessages
    cases h : checkSchedule rs s now <;> simp
  · intro r h
    exact find?_first_split (isEligible s now) rs r h

/-- Claim C6, witness: rem1 and rem2 are simultaneously eligible at
instant 5, yet only one message is raised and rem1, first in stored
order, is the reminder surfaced. -/
theorem C6_witness :
    (checkScheduleMessages [rem1, rem2] DEFAULT_SETTINGS 5).length ≤ 1 ∧
    isEligible DEFAULT_SETTINGS 5 rem1 = true ∧
    isEligible DEFAULT_SETTINGS 5 rem2 = true ∧
    (∃ l1 l2, [rem1, rem2] = l1 ++ rem1 :: l2 ∧
      (∀ x ∈ l1, isEligible DEFAULT_SETTINGS 5 x = false) ∧
      isEligible DEFAULT_SETTINGS 5 rem1 = true) :=
  ⟨(C6_single_first_match [rem1, rem2] DEFAULT_SETTINGS 5).1, by decide,
   by decide,
   (C6_single_first_match [rem1, rem2] DEFAULT_SETTINGS 5).2 rem1 (by rfl)⟩

/-- Claim C7, counterexample: with no resolvable plant, task "Watering"
(not "Other"), a non-empty custom label and frequencyDays = 0,
`handleAddReminder` inserts a reminder, although the claim demands a
no-op (its guard requires frequencyDays >= 1 and counts a custom label
only when task == "Other"); the code checks neither. -/
theorem C7_counterexample :
    (handleAddReminder [] "" "Watering" "Wipe leaves" 0 1000 "n1"
      []).length = 1 ∧
    ¬ (handleAddReminder [] "" "Watering" "Wipe leaves" 0 1000 "n1" [] =
      []) :=
  ⟨by decide, by decide⟩

/-- Claim C7, amended: `handleAddReminder` inserts the new reminder at
the head of the collection if and only if the plantId resolves to a
journal entry or the custom label is non-empty — regardless of the task
label and with no validation of frequencyDays; otherwise it is a silent
no-op leaving the collection unchanged. -/
theorem C7_create_guard (plants : List JournalEntry)
    (sid task ctask : String) (freq now : Int) (newId : String)
    (rs : List PlantReminder) :
    ((plants.find? (fun p => p.id == sid)).isSome = true ∨ ctask ≠ "" →
      handleAddReminder plants sid task ctask freq now newId rs =
        mkNewReminder plants sid task ctask freq now newId :: rs) ∧
    ((plants.find? (fun p => p.id == sid)) = none ∧ ctask = "" →
      handleAddReminder plants sid task ctask freq now newId rs = rs) := by
  constructor
  · intro h
    simp only [handleAddReminder]
    rw [if_neg]
    rintro ⟨h1, h2⟩
    rcases h with h | h
    · rw [Option.isNone_iff_eq_none] at h1
      simp [h1] at h
    · exact h (by simpa using h2)
  · rintro ⟨h1, h2⟩
    simp only [handleAddReminder]
    rw [if_pos]
    exact ⟨by simp [h1], by simp [h2]⟩

/-- Claim C7, witness: a create with only a custom label inserts at the
head, and a create with no plant and empty custom label is a no-op. -/
theorem C7_witness :
    handleAddReminder [] "" "Other" "Mist leaves" 3 1000 "n2" [] =
      [mkNewReminder [] "" "Other" "Mist leaves" 3 1000 "n2"] ∧
    handleAddReminder [] "" "Watering" "" 3 1000 "n2" [] = [] :=
  ⟨(C7_create_guard [] "" "Other" "Mist leaves" 3 1000 "n2" []).1
      (Or.inr (by decide)),
   (C7_create_guard [] "" "Watering" "" 3 1000 "n2" []).2 ⟨rfl, rfl⟩⟩

/-- A comma-free group splits to itself alone. -/
lemma splitCommas_no_comma (g : List Char) (hg : ',' ∉ g) :
    splitCommas g = [g] := by
  induction g with
  | nil => rfl
  | cons c rest ih =>
      have hc : ¬ (c = ',') := fun h => hg (h ▸ List.mem_cons_self c rest)
      have hrest : ',' ∉ rest := fun h => hg (List.mem_cons_of_mem c h)
      simp [splitCommas, hc, ih hrest]

/-- Splitting starts by peeling a leading comma-free group. -/
lemma splitCommas_append (g rest : List Char) (hg : ',' ∉ g) :
    splitCommas (g ++ ',' :: rest) = g :: splitCommas rest := by
  induction g with
  | nil => simp [splitCommas]
  | cons c g2 ih =>
      have hc : ¬ (c = ',') := fun h => hg (h ▸ List.mem_cons_self c g2)
      have hg2 : ',' ∉ g2 := fun h => hg (List.mem_cons_of_mem c h)
      simp [splitCommas, hc, ih hg2]

/-- Splitting is a left inverse of joining for non-empty comma-free
group lists. -/
lemma splitCommas_joinCommas (gs : List (List Char))
    (h : ∀ g ∈ gs, ',' ∉ g) (hne : gs ≠ []) :
    splitCommas (joinCommas gs) = gs := by
  induction gs with
  | nil => exact absurd rfl hne
  | cons g gs ih =>
      cases gs with
      | nil => exact splitCommas_no_comma g (h g (by simp))
      | cons g2 gs2 =>
          have h1 : joinCommas (g :: g2 :: gs2) =
              g ++ ',' :: joinCommas (g2 :: gs2) := rfl
          rw [h1, splitCommas_append g _ (h g (by simp))]
          rw [ih (fun x hx => h x (List.mem_cons_of_mem g hx)) (by simp)]

/-- The joined body is empty only for no groups or one empty group. -/
lemma joinCommas_ne_nil (gs : List (List Char)) (hne : gs ≠ [])
    (hne2 : gs ≠ [[]]) : joinCommas gs ≠ [] := by
  cases gs with
  | nil => exact absurd rfl hne
  | cons g gs2 =>
      cases gs2 with
      | nil =>
          intro h
          have h2 : joinCommas [g] = g := rfl
          rw [h2] at h
          exact hne2 (by rw [h])
      | cons g2 gs3 => simp [joinCommas]

/-- A journal persisted through the modelled `JSON.stringify` loads back
exactly, in stored (most-recent-first) order, for every id list that is
not the single empty id and has comma-free ids. -/
lemma loadJournal_stringify_roundtrip (ids : List String)
    (h1 : ∀ id ∈ ids, ',' ∉ id.data) (h2 : ids ≠ [""]) :
    loadJournal (some (stringifyJournal ids)) = Except.ok ids := by
  cases ids with
  | nil => rfl
  | cons i rest =>
      have hbody : joinCommas ((i :: rest).map String.data) ≠ [] := by
        apply joinCommas_ne_nil _ (by simp)
        intro hbad
        apply h2
        cases rest with
        | nil =>
            simp at hbad
            have : i = "" := by
              have := congrArg String.mk (hbad)
              simpa using this
            rw [this]
        | cons r rs => simp at hbad
      set body := joinCommas ((i :: rest).map String.data) with hb
      have hne_str : stringifyJournal (i :: rest) ≠ "" := by
        intro h
        have := congrArg String.data h
        simp [stringifyJournal] at this
      show parseJournal
          (if stringifyJournal (i :: rest) = "" then "[]"
           else stringifyJournal (i :: rest)) = Except.ok (i :: rest)
      rw [if_neg hne_str]
      unfold parseJournal
      have hcs : (stringifyJournal (i :: rest)).toList =
          ('[' :: body) ++ (']' :: []) := by
        simp [stringifyJournal, String.toList, hb]
      rw [hcs]
      rw [if_pos]
      · have hdrop : ((('[' :: body) ++ (']' :: [])).drop 1).dropLast =
            body := by
          rw [List.cons_append]
          show (body ++ [']']).dropLast = body
          exact List.dropLast_concat ..
        rw [hdrop, if_neg hbody]
        rw [splitCommas_joinCommas _ ?_ (by simp)]
        · have hcomp : (String.mk ∘ String.data) = id :=
            funext fun s => rfl
          rw [List.map_map, hcomp, List.map_id]
        · intro g hg
          rcases List.mem_map.mp hg with ⟨s, hs, rfl⟩
          exact h1 s hs
      · refine ⟨by rw [List.cons_append]; rfl, ?_, by simp⟩
        rw [List.getLast?_concat]

/-- Claim C8, counterexample: with a storage layer that rejects every
write (quota or storage unavailable), the single unguarded retry of the
persist also throws, so the failure propagates out of the journal
persist step — the claim's "never propagated to the user as a hard
failure" is false; the escaping exception reaches `handleIdentify`'s
generic catch, which alerts the user that the scan failed. -/
theorem C8_counterexample :
    persistJournalWithRetry (fun _ => false) [mkEntry 1] =
      Except.error () := by
  rfl

/-- Claim C8, amended: on a persist failure the journal append retries
exactly once with the collection truncated to 10 entries (not a
progressively shrinking sequence of retries); the user-visible action
survives exactly when the original write or that single retry is
accepted, and when both are rejected the failure propagates. -/
theorem C8_persist_retry (accepts : List JournalEntry → Bool)
    (updated : List JournalEntry) :
    (accepts updated = true →
      persistJournalWithRetry accepts updated = Except.ok updated) ∧
    (accepts updated = false → accepts (updated.take 10) = true →
      persistJournalWithRetry accepts updated =
        Except.ok (updated.take 10)) ∧
    (accepts updated = false → accepts (updated.take 10) = false →
      persistJournalWithRetry accepts updated = Except.error ()) := by
  refine ⟨?_, ?_, ?_⟩
  · intro h1
    simp [persistJournalWithRetry, h1]
  · intro h1 h2
    simp [persistJournalWithRetry, h1, h2]
  · intro h1 h2
    simp [persistJournalWithRetry, h1, h2]

/-- Claim C8, witness: under a ten-entry quota a twenty-entry write
degrades to its first ten entries; an unlimited store keeps all twenty;
a store rejecting everything non-empty yields the propagated error. -/
theorem C8_witness :
    persistJournalWithRetry quota10 (entrySeq 20) =
      Except.ok ((entrySeq 20).take 10) ∧
    persistJournalWithRetry (fun _ => true) (entrySeq 20) =
      Except.ok (entrySeq 20) ∧
    persistJournalWithRetry (fun l => decide (l.length = 0))
      (entrySeq 20) = Except.error () :=
  ⟨(C8_persist_retry quota10 (entrySeq 20)).2.1 (by decide) (by decide),
   (C8_persist_retry (fun _ => true) (entrySeq 20)).1 rfl,
   (C8_persist_retry (fun l => decide (l.length = 0)) (entrySeq 20)).2.2
     (by decide) (by decide)⟩

/-- Claim C9, counterexample: the stored string "oops" is not valid
JSON, so the unguarded `JSON.parse` in the journal load throws instead
of producing the empty collection — the claim's "treats corrupted
stored data as empty rather than crashing, for every possible
stored-string state" is false. -/
theorem C9_counterexample :
    loadJournal (some "oops") = Except.error "Unexpected token in JSON" ∧
    ¬ (loadJournal (some "oops") = Except.ok []) := by
  refine ⟨rfl, fun h => ?_⟩
  rw [show loadJournal (some "oops") =
      Except.error "Unexpected token in JSON" from rfl] at h
  exact Except.noConfusion h

/-- Claim C9, amended: the load yields the empty collection when nothing
is persisted (null or empty string), parses a stored empty array, and
returns every validly persisted journal in stored (most-recent-first)
order — but a corrupted stored string makes the unguarded parse throw
(a crash), rather than being treated as empty. -/
theorem C9_load_semantics :
    loadJournal none = Except.ok [] ∧
    loadJournal (some "") = Except.ok [] ∧
    loadJournal (some "[]") = Except.ok [] ∧
    loadJournal (some "not json") =
      Except.error "Unexpected token in JSON" ∧
    (∀ ids : List String, (∀ id ∈ ids, ',' ∉ id.data) → ids ≠ [""] →
      loadJournal (some (stringifyJournal ids)) = Except.ok ids) :=
  ⟨rfl, rfl, rfl, rfl, loadJournal_stringify_roundtrip⟩

/-- Claim C9, witness: the amended theorem's roundtrip clause applied to
the concrete stored journal ["id-b", "id-a"]. -/
theorem C9_roundtrip_witness :
    loadJournal (some (stringifyJournal ["id-b", "id-a"])) =
      Except.ok ["id-b", "id-a"] :=
  C9_load_semantics.2.2.2.2 ["id-b", "id-a"] (by decide) (by decide)

/-- Claim C10: `authService.login` ignores its password argument — any
two passwords produce identical results and identical session state;
it fails exactly when no stored user carries the email, and on success
returns the found user and saves it as the session. -/
theorem C10_login_ignores_password (st : AuthState)
    (email p1 p2 : String) :
    login st email p1 = login st email p2 ∧
    (login st email p1 = Except.error "User not found" ↔
      st.users.find? (fun u => u.email == email) = none) ∧
    (∀ u, st.users.find? (fun u => u.email == email) = some u →
      login st email p1 = Except.ok (u, { st with session := some u })) := by
  refine ⟨rfl, ?_, ?_⟩
  · unfold login
    cases h : st.users.find? (fun u => u.email == email) <;> simp
  · intro u h
    unfold login
    rw [h]

/-- Claim C10, witness: logging in as the stored user succeeds and
stores the session regardless of the password supplied. -/
theorem C10_witness :
    login { users := [user1], session := none } "amy@example.com" "pw1" =
      Except.ok (user1, { users := [user1], session := some user1 }) :=
  (C10_login_ignores_password { users := [user1], session := none }
      "amy@example.com" "pw1" "pw2").2.2 user1 (by rfl)

end FloraGenius
